import Mathlib

/- Shallow embedding of `src/NAT/app/services/infrastructure.py` (module
`app.services.infrastructure`): SchemaValidator, CircuitBreaker, TokenBucket
and ReconciliationEngine, together with theorems settling the
specification's claims about them.

Modelling conventions:
* Python floats are modelled as `ℚ`; the arithmetic relevant to the claims
  uses only field operations and order comparisons, which `ℚ` shares with
  IEEE floats on the concrete inputs considered (the one non-rational
  quantity, the standard deviation `(...)**0.5`, is carried as its square).
* Wall-clock readings (`time.time()` / `datetime.now()`) are explicit `ℚ`
  parameters (seconds), and the timestamp parser
  `datetime.fromisoformat(s.replace('Z', '+00:00'))` is an explicit
  parameter `parseTs : String → Option ℚ`, `none` when parsing raises.
* Fallible code returns `Except`. -/

namespace Infra

/- ============================================================
   SCHEMA VALIDATION  (infrastructure.py lines 26-74)
   ============================================================ -/

/- JSON-decoded Python values as they reach `SchemaValidator.validate`. -/
inductive JsonVal where
  | vStr (s : String)
  | vNum (q : ℚ)
  | vBool (b : Bool)
  | vNull
  | vObj (fields : List (String × JsonVal))
  | vArr (elems : List JsonVal)

/- The `"type"` entry of a property spec: either a plain string (e.g.
`{"type": "string"}`) or a list of strings (e.g. `{"type": ["number","null"]}`,
used for `raw_value`). -/
inductive SchemaType where
  | single (t : String)
  | multi (ts : List String)

/- Python `expected_type == "object"` etc.: comparing a list-valued spec
against a plain string is always `False`. -/
def SchemaType.isType : SchemaType → String → Bool
  | .single t, s => t = s
  | .multi _, _ => false

structure Schema where
  required : List String
  properties : List (String × SchemaType)

/- `SchemaValidator.ADAPTER_RESPONSE_SCHEMA` (lines 29-43), with the
properties in Python dict insertion order. -/
def ADAPTER_RESPONSE_SCHEMA : Schema :=
  { required := ["company_id", "metric", "source_id", "fetched_at"]
  , properties :=
      [ ("company_id", .single "string")
      , ("metric", .single "string")
      , ("raw_value", .multi ["number", "null"])
      , ("raw_units", .single "string")
      , ("raw_currency", .single "string")
      , ("source_id", .single "string")
      , ("reported_at", .single "string")
      , ("fetched_at", .single "string")
      , ("meta", .single "object") ] }

/- Python dicts have unique keys; payloads are modelled as association
lists, looked up by first match. -/
def lookupKey (data : List (String × JsonVal)) (k : String) : Option JsonVal :=
  match data with
  | [] => none
  | (k', v) :: rest => if k' = k then some v else lookupKey rest k

def hasKey (data : List (String × JsonVal)) (k : String) : Bool :=
  (lookupKey data k).isSome

/- `isinstance(value, dict)` -/
def isInstDict : JsonVal → Bool
  | .vObj _ => true
  | _ => false

/- `isinstance(value, str)` -/
def isInstStr : JsonVal → Bool
  | .vStr _ => true
  | _ => false

/- `isinstance(value, (int, float))`; note Python `bool` is a subclass of
`int`, so booleans pass this test. -/
def isInstNum : JsonVal → Bool
  | .vNum _ => true
  | .vBool _ => true
  | _ => false

/- `isinstance(value, list)` -/
def isInstList : JsonVal → Bool
  | .vArr _ => true
  | _ => false

/- `value is None` -/
def isNone : JsonVal → Bool
  | .vNull => true
  | _ => false

/- The `required` loop of `SchemaValidator.validate` (lines 50-53): first
missing required field yields the error message. -/
def checkRequired (req : List String) (data : List (String × JsonVal)) : Option String :=
  match req with
  | [] => none
  | f :: fs =>
      if hasKey data f then checkRequired fs data
      else some ("Missing required field: " ++ f)

/- The property-type loop of `SchemaValidator.validate` (lines 56-70).  The
four `if` tests mirror the source exactly: each compares `expected_type`
against one plain string, and the `number` branch is additionally guarded by
`if value is not None`. -/
def checkProps (props : List (String × SchemaType)) (data : List (String × JsonVal)) :
    Option String :=
  match props with
  | [] => none
  | (key, spec) :: rest =>
      match lookupKey data key with
      | none => checkProps rest data
      | some value =>
          if spec.isType "object" && !isInstDict value then
            some ("Field " ++ key ++ " must be object")
          else if spec.isType "string" && !isInstStr value then
            some ("Field " ++ key ++ " must be string")
          else if spec.isType "number" && !isInstNum value && !isNone value then
            some ("Field " ++ key ++ " must be number")
          else if spec.isType "array" && !isInstList value then
            some ("Field " ++ key ++ " must be array")
          else checkProps rest data

/- `SchemaValidator.validate` (lines 45-74).  Nothing in the loop body can
raise, so the enclosing `try/except` is dead and not modelled. -/
def validate (data : List (String × JsonVal)) (schema : Schema) : Bool × String :=
  match checkRequired schema.required data with
  | some msg => (false, msg)
  | none =>
      match checkProps schema.properties data with
      | some msg => (false, msg)
      | none => (true, "")

/- ============================================================
   CIRCUIT BREAKER  (infrastructure.py lines 81-146)
   ============================================================ -/

/- `CircuitState`; Python's `OPEN` is spelled `opened` because `open` is a
Lean keyword. -/
inductive CircuitState where
  | closed
  | opened
  | halfOpen
deriving DecidableEq

structure CircuitBreaker where
  name : String
  failureThreshold : ℕ := 5
  recoveryTimeout : ℚ := 60
  halfOpenSuccessThreshold : ℕ := 2
  state : CircuitState := .closed
  failures : ℕ := 0
  successes : ℕ := 0
  lastFailureTime : ℚ := 0
deriving DecidableEq

/- The locked state-check prologue of `CircuitBreaker.call` (lines 103-109):
returns the updated breaker and whether the call is allowed through
(`false` means `CircuitBreakerOpenError` is raised). -/
def checkOpen (now : ℚ) (cb : CircuitBreaker) : CircuitBreaker × Bool :=
  if cb.state = .opened then
    if now - cb.lastFailureTime > cb.recoveryTimeout then
      ({ cb with state := .halfOpen }, true)
    else (cb, false)
  else (cb, true)

/- `CircuitBreaker._on_success` (lines 119-129). -/
def onSuccess (cb : CircuitBreaker) : CircuitBreaker :=
  if cb.state = .halfOpen then
    let s := cb.successes + 1
    if cb.halfOpenSuccessThreshold ≤ s then
      { cb with state := .closed, failures := 0, successes := 0 }
    else { cb with successes := s }
  else { cb with failures := 0 }

/- `CircuitBreaker._on_failure` (lines 131-142); `t` is the `time.time()`
reading recorded into `last_failure_time`. -/
def onFailure (t : ℚ) (cb : CircuitBreaker) : CircuitBreaker :=
  let cb1 := { cb with failures := cb.failures + 1, lastFailureTime := t }
  if cb1.state = .halfOpen then
    { cb1 with state := .opened, successes := 0 }
  else if cb1.failureThreshold ≤ cb1.failures then
    { cb1 with state := .opened }
  else cb1

inductive CallErr where
  | circuitOpen
  | fnError (msg : String)
deriving DecidableEq

/- The body of `CircuitBreaker.call` after the prologue (lines 111-117):
invoke the function, record success or failure, return its result or
re-raise its error.  The protected function is modelled by its outcome
`fn : Except String ℚ`. -/
def runFn (failT : ℚ) (fn : Except String ℚ) (cb : CircuitBreaker) :
    CircuitBreaker × Except CallErr ℚ × Bool :=
  match fn with
  | .ok v => (onSuccess cb, .ok v, true)
  | .error e => (onFailure failT cb, .error (.fnError e), true)

/- `CircuitBreaker.call` (lines 101-117).  `now` is the `time.time()` read
in the prologue, `failT` the one `_on_failure` would record.  The third
component records whether the protected function was invoked. -/
def call (now failT : ℚ) (fn : Except String ℚ) (cb : CircuitBreaker) :
    CircuitBreaker × Except CallErr ℚ × Bool :=
  let p := checkOpen now cb
  if p.2 then runFn failT fn p.1
  else (p.1, .error .circuitOpen, false)

/- The three primitive state mutations of `CircuitBreaker`: the prologue of
`call`, `_on_success`, `_on_failure`.  Every write to the `state` field in
the source happens inside one of them, and a full `call` is `check`
followed by `success` or `failure`. -/
inductive CBOp where
  | check (now : ℚ)
  | success
  | failure (t : ℚ)

def applyOp : CBOp → CircuitBreaker → CircuitBreaker
  | .check now, cb => (checkOpen now cb).1
  | .success, cb => onSuccess cb
  | .failure t, cb => onFailure t cb

/- The sequence of breaker states visited while executing a sequence of
primitive operations, initial state included. -/
def cbTrace (cb : CircuitBreaker) : List CBOp → List CircuitBreaker
  | [] => [cb]
  | op :: ops => cb :: cbTrace (applyOp op cb) ops

/- The transition edges the specification allows for the `state` field. -/
def allowedEdge : CircuitState → CircuitState → Bool
  | .closed, .opened => true
  | .opened, .halfOpen => true
  | .halfOpen, .closed => true
  | .halfOpen, .opened => true
  | _, _ => false

/- ============================================================
   RATE LIMITING: TOKEN BUCKET  (infrastructure.py lines 153-188)
   ============================================================ -/

structure TokenBucket where
  rate : ℚ
  capacity : ℚ
  tokens : ℚ
  name : String
  lastUpdate : ℚ
deriving DecidableEq

/- `TokenBucket.__init__` (lines 156-162); `now` is the construction-time
`time.time()`. -/
def mkTokenBucket (rate capacity : ℚ) (name : String) (now : ℚ) : TokenBucket :=
  { rate := rate, capacity := capacity, tokens := capacity, name := name, lastUpdate := now }

/- The lazy refill at the top of `TokenBucket.acquire` (lines 167-170). -/
def refill (now : ℚ) (tb : TokenBucket) : TokenBucket :=
  { tb with
      tokens := min tb.capacity (tb.tokens + (now - tb.lastUpdate) * tb.rate)
      lastUpdate := now }

/- `TokenBucket.acquire` (lines 164-175). -/
def acquire (now n : ℚ) (tb : TokenBucket) : TokenBucket × Bool :=
  let tb1 := refill now tb
  if n ≤ tb1.tokens then ({ tb1 with tokens := tb1.tokens - n }, true)
  else (tb1, false)

/- The sequence of bucket states around a sequence of `acquire (now, n)`
calls, initial state included. -/
def tbStates (tb : TokenBucket) : List (ℚ × ℚ) → List TokenBucket
  | [] => [tb]
  | (now, n) :: ops => tb :: tbStates (acquire now n tb).1 ops

/- ============================================================
   RECONCILIATION ENGINE  (infrastructure.py lines 278-470)
   ============================================================ -/

inductive ConfidenceLevel where
  | HIGH
  | MEDIUM
  | LOW
  | VERY_LOW
deriving DecidableEq

/- `ReconciliationCandidate` (lines 285-294).  `value` is typed `float` in
the source but `reconcile` guards every use with `is not None`, so it is
modelled as `Option ℚ`. -/
structure ReconciliationCandidate where
  value : Option ℚ
  source : String
  fetched_at : String
  reported_at : Option String := none
  raw_blob_id : Option String := none
  units : String := ""
  currency : String := ""
deriving DecidableEq

/- `ReconciliationEngine.MAX_AGE` (lines 304-312). -/
def MAX_AGE : List (String × ℚ) :=
  [ ("market_cap", 48 * 3600)
  , ("price", 5 * 60)
  , ("revenue", 24 * 3600)
  , ("ebitda", 24 * 3600)
  , ("pe_ratio", 24 * 3600)
  , ("roe", 24 * 3600)
  , ("default", 24 * 3600) ]

/- `self.MAX_AGE.get(metric_key, self.MAX_AGE["default"])` (line 345). -/
def maxAgeFor (metricKey : String) : ℚ :=
  (MAX_AGE.lookup metricKey).getD (24 * 3600)

def PRIMARY_TOLERANCE : ℚ := 15 / 100

def SECONDARY_TOLERANCE : ℚ := 30 / 100

/- `ReconciliationEngine.SOURCE_TRUST` (lines 319-328). -/
def SOURCE_TRUST : List (String × ℚ) :=
  [ ("nse_india", 95 / 100)
  , ("bse_india", 90 / 100)
  , ("fmp", 80 / 100)
  , ("yfinance", 78 / 100)
  , ("alpha_vantage", 75 / 100)
  , ("gnews", 70 / 100)
  , ("newsapi", 70 / 100)
  , ("tavily", 65 / 100) ]

/- `self.SOURCE_TRUST.get(c.source, 0.5)` (line 412). -/
def trustOf (source : String) : ℚ :=
  (SOURCE_TRUST.lookup source).getD (1 / 2)

/- One iteration of the staleness loop (lines 349-356): parse the
timestamp; keep the candidate when its age is within `maxAge`, and also —
fail-open — when parsing raises. -/
def keepCandidate (parseTs : String → Option ℚ) (now maxAge : ℚ)
    (c : ReconciliationCandidate) : Bool :=
  match parseTs c.fetched_at with
  | some fetched => decide (now - fetched ≤ maxAge)
  | none => true

/- The surviving set `valid_candidates` after the staleness filter of
`reconcile` (lines 344-356). -/
def validCandidatesOf (parseTs : String → Option ℚ) (now : ℚ) (metricKey : String)
    (candidates : List ReconciliationCandidate) : List ReconciliationCandidate :=
  candidates.filter (keepCandidate parseTs now (maxAgeFor metricKey))

/- `values = [c.value for c in valid_candidates if c.value is not None]`
(line 368). -/
def numericValuesOf (cands : List ReconciliationCandidate) : List ℚ :=
  cands.filterMap (fun c => c.value)

/- Python `sorted` on a list of floats: stable, but on plain numbers the
output is just the ascending rearrangement, reproduced here by insertion
sort. -/
def insertSorted (x : ℚ) : List ℚ → List ℚ
  | [] => [x]
  | y :: ys => if x ≤ y then x :: y :: ys else y :: insertSorted x ys

def sortValues : List ℚ → List ℚ
  | [] => []
  | x :: xs => insertSorted x (sortValues xs)

/- `median` (line 381): `values_sorted[n // 2]` when `n` is odd, average of
the two middle elements when even.  The `getD` defaults are unreachable:
the branch computing the median has `values` non-empty, so both indices are
in range. -/
def medianOf (values_sorted : List ℚ) : ℚ :=
  let n := values_sorted.length
  if n % 2 = 1 then values_sorted.getD (n / 2) 0
  else (values_sorted.getD (n / 2 - 1) 0 + values_sorted.getD (n / 2) 0) / 2

def medianValue (values : List ℚ) : ℚ :=
  medianOf (sortValues values)

/- `min(values)` / `max(values)` for the non-empty `values` list. -/
def minOf : List ℚ → ℚ
  | [] => 0
  | x :: xs => xs.foldl min x

def maxOf : List ℚ → ℚ
  | [] => 0
  | x :: xs => xs.foldl max x

/- `variance` (lines 388-391): `(max - min) / |median|` when the median is
nonzero, `float('inf')` — modelled as `none` — otherwise. -/
def varianceValue (values : List ℚ) : Option ℚ :=
  if medianValue values ≠ 0 then
    some ((maxOf values - minOf values) / |medianValue values|)
  else none

/- `variance <= tol`, where `variance` may be `float('inf')` (`none`),
which exceeds every tolerance. -/
def varLE (v : Option ℚ) (tol : ℚ) : Bool :=
  match v with
  | some q => decide (q ≤ tol)
  | none => false

/- Recency weight of a candidate (lines 414-419): decay of the parsed age
over 48 hours, `0.5` when the timestamp does not parse. -/
def recencyWeight (parseTs : String → Option ℚ) (now : ℚ)
    (c : ReconciliationCandidate) : ℚ :=
  match parseTs c.fetched_at with
  | some fetched => max 0 (1 - ((now - fetched) / 3600) / 48)
  | none => 1 / 2

/- `score = trust + (recency_weight * 0.3)` (line 421). -/
def scoreOf (parseTs : String → Option ℚ) (now : ℚ)
    (c : ReconciliationCandidate) : ℚ :=
  trustOf c.source + recencyWeight parseTs now c * (3 / 10)

/- `scored_candidates` before sorting (lines 409-422): candidates with a
numeric value paired with their score, in candidate order. -/
def scoredCandidates (parseTs : String → Option ℚ) (now : ℚ)
    (cands : List ReconciliationCandidate) : List (ℚ × ReconciliationCandidate) :=
  cands.filterMap (fun c =>
    match c.value with
    | some _ => some (scoreOf parseTs now c, c)
    | none => none)

/- `scored_candidates.sort(reverse=True)` (line 424) compares
`(score, candidate)` tuples with Python `<`: when two scores are equal the
comparison falls through to the `ReconciliationCandidate` operands, which do
not support `<` (the dataclass is declared without `order=True`), raising
`TypeError`.  Modelled as a sort that fails on any score tie (exact for the
two-element lists evaluated below, where CPython performs exactly that one
comparison). -/
def insertScored (x : ℚ × ReconciliationCandidate) :
    List (ℚ × ReconciliationCandidate) →
      Except Unit (List (ℚ × ReconciliationCandidate))
  | [] => .ok [x]
  | y :: ys =>
      if y.1 < x.1 then .ok (x :: y :: ys)
      else if x.1 < y.1 then (insertScored x ys).map (y :: ·)
      else .error ()

def sortScoredDesc : List (ℚ × ReconciliationCandidate) →
    Except Unit (List (ℚ × ReconciliationCandidate))
  | [] => .ok []
  | x :: xs => do insertScored x (← sortScoredDesc xs)

/- One entry of the `provenance` list (lines 464-469). -/
structure ProvEntry where
  source : String
  value : Option ℚ
  fetched_at : String
  raw_blob_id : Option String
deriving DecidableEq

/- `sorted(candidates, key=lambda x: x.fetched_at, reverse=True)`
(line 463): stable descending sort on the `fetched_at` string, reproduced
by a stable insertion sort processing candidates left to right (`x` is
placed before `y` exactly when `x.fetched_at > y.fetched_at`). -/
def insertByFetchedDesc (x : ReconciliationCandidate) :
    List ReconciliationCandidate → List ReconciliationCandidate
  | [] => [x]
  | y :: ys =>
      if y.fetched_at < x.fetched_at then x :: y :: ys
      else y :: insertByFetchedDesc x ys

def sortByFetchedDesc (cands : List ReconciliationCandidate) :
    List ReconciliationCandidate :=
  cands.foldl (fun acc c => insertByFetchedDesc c acc) []

/- `ReconciliationEngine._get_top_provenance` (lines 460-470). -/
def getTopProvenance (cands : List ReconciliationCandidate) (k : ℕ) :
    List ProvEntry :=
  ((sortByFetchedDesc cands).take k).map
    (fun c => ⟨c.source, c.value, c.fetched_at, c.raw_blob_id⟩)

/- The `diagnostics` dicts of the various return branches, as one record of
optional entries (`none` = key absent).  `std_dev_sq` carries the square of
the source's `std_dev` (its square root is not rational); `variance` is
`some none` when the source stores `float('inf')`. -/
structure Diagnostics where
  median : Option ℚ := none
  mean : Option ℚ := none
  std_dev_sq : Option ℚ := none
  variance : Option (Option ℚ) := none
  top_source : Option String := none
  candidate_count : Option ℕ := none
deriving DecidableEq

/- The dict returned by `reconcile` (docstring line 333). -/
structure ReconciliationResult where
  value : Option ℚ
  confidence : ConfidenceLevel
  provenance : List ProvEntry
  issue : Option String := none
  diagnostics : Diagnostics := {}
deriving DecidableEq

/- Python truthiness of the `Optional[float]` values tested by
`if top_value and second_value and ...` (line 431): `None` and `0.0` are
falsy. -/
def pyTruthy : Option ℚ → Bool
  | none => false
  | some q => decide (q ≠ 0)

/- The step-5 conflict dict (lines 448-458). -/
def conflictResult (scored : List (ℚ × ReconciliationCandidate))
    (variance : Option ℚ) (valid : List ReconciliationCandidate) :
    ReconciliationResult :=
  { value := match scored with | [] => none | (_, c) :: _ => c.value
  , confidence := .LOW
  , provenance := getTopProvenance valid 1
  , issue := some "conflicting_sources"
  , diagnostics :=
      { variance := some variance
      , top_source := match scored with | [] => none | (_, c) :: _ => some c.source
      , candidate_count := some valid.length } }

/- `mean = sum(values) / n` (line 382). -/
def meanValue (values : List ℚ) : ℚ :=
  values.sum / (values.length : ℚ)

/- The square of `std_dev` (line 383); the source's `** 0.5` leaves ℚ, so
the square is carried instead (no claim concerns its value). -/
def stdDevSq (values : List ℚ) : ℚ :=
  if 1 < values.length then
    (values.map (fun x => (x - meanValue values) ^ 2)).sum / (values.length : ℚ)
  else 0

/- The step-3 high-confidence dict (lines 393-406). -/
def highResult (valid : List ReconciliationCandidate) (values : List ℚ) :
    ReconciliationResult :=
  { value := some (medianValue values), confidence := .HIGH
  , provenance := getTopProvenance valid 3
  , diagnostics :=
      { median := some (medianValue values), mean := some (meanValue values)
      , std_dev_sq := some (stdDevSq values)
      , variance := some (varianceValue values)
      , candidate_count := some valid.length } }

/- The step-4 medium-confidence dict (lines 434-445). -/
def mediumResult (valid : List ReconciliationCandidate) (values : List ℚ)
    (topSource : String) : ReconciliationResult :=
  { value := some (medianValue values), confidence := .MEDIUM
  , provenance := getTopProvenance valid 3
  , diagnostics :=
      { median := some (medianValue values), variance := some (varianceValue values)
      , top_source := some topSource
      , candidate_count := some valid.length } }

/- Steps 4b-5 of `reconcile` (lines 426-458), applied to the sorted scored
candidates: the secondary-tolerance comparison between the top two, guarded
by `if top_value and second_value and top_value != 0` — Python truthiness,
so a zero top or second value skips the comparison — else the conflict
outcome. -/
def scoredStep (scored : List (ℚ × ReconciliationCandidate)) (variance : Option ℚ)
    (valid : List ReconciliationCandidate) (values : List ℚ) : ReconciliationResult :=
  match scored with
  | (_, c1) :: (_, c2) :: _ =>
      if pyTruthy c1.value && pyTruthy c2.value && !decide (c1.value = some (0 : ℚ)) then
        if |c1.value.getD 0 - c2.value.getD 0| / |c1.value.getD 0| ≤ SECONDARY_TOLERANCE then
          mediumResult valid values c1.source
        else conflictResult scored variance valid
      else conflictResult scored variance valid
  | _ => conflictResult scored variance valid

/- Steps 2-5 of `reconcile` (lines 367-458), on the surviving candidate
set. -/
def reconcileValid (parseTs : String → Option ℚ) (now : ℚ)
    (valid : List ReconciliationCandidate) : Except Unit ReconciliationResult :=
  if numericValuesOf valid = [] then
    .ok { value := none, confidence := .LOW, provenance := []
        , issue := some "no_numeric_values", diagnostics := {} }
  else if varLE (varianceValue (numericValuesOf valid)) PRIMARY_TOLERANCE then
    .ok (highResult valid (numericValuesOf valid))
  else
    match sortScoredDesc (scoredCandidates parseTs now valid) with
    | .error e => .error e
    | .ok scored =>
        .ok (scoredStep scored (varianceValue (numericValuesOf valid)) valid
          (numericValuesOf valid))

/- `ReconciliationEngine.reconcile` (lines 330-458).  `parseTs` and `now`
stand for `datetime.fromisoformat ∘ (replace 'Z' '+00:00')` and
`datetime.now()`; a `.error` result models the `TypeError` escaping from
`scored_candidates.sort` (line 424). -/
def reconcile (parseTs : String → Option ℚ) (now : ℚ) (metric_key : String)
    (candidates : List ReconciliationCandidate) :
    Except Unit ReconciliationResult :=
  if candidates = [] then
    .ok { value := none, confidence := .VERY_LOW, provenance := []
        , issue := some "missing_data", diagnostics := {} }
  else if validCandidatesOf parseTs now metric_key candidates = [] then
    .ok { value := none, confidence := .VERY_LOW, provenance := []
        , issue := some "stale_data", diagnostics := {} }
  else
    reconcileValid parseTs now (validCandidatesOf parseTs now metric_key candidates)

/- Equality of `Except` values is decidable componentwise (used to evaluate
`reconcile` and `sortScoredDesc` outcomes on concrete inputs). -/
instance {ε α : Type} [DecidableEq ε] [DecidableEq α] : DecidableEq (Except ε α) :=
  fun a b =>
    match a, b with
    | .ok x, .ok y =>
        if h : x = y then isTrue (by rw [h])
        else isFalse (fun hc => h (Except.ok.inj hc))
    | .error x, .error y =>
        if h : x = y then isTrue (by rw [h])
        else isFalse (fun hc => h (Except.error.inj hc))
    | .ok _, .error _ => isFalse (fun hc => Except.noConfusion hc)
    | .error _, .ok _ => isFalse (fun hc => Except.noConfusion hc)

/- ============================================================
   SHARED HELPER LEMMAS
   ============================================================ -/

theorem mem_insertSorted {x : ℚ} {a : ℚ} {l : List ℚ} :
    x ∈ insertSorted a l ↔ x = a ∨ x ∈ l := by
  induction l with
  | nil => simp [insertSorted]
  | cons y ys ih =>
      by_cases h : a ≤ y
      · simp [insertSorted, h]
      · simp [insertSorted, h, ih]
        tauto

theorem mem_sortValues {x : ℚ} {l : List ℚ} : x ∈ sortValues l ↔ x ∈ l := by
  induction l with
  | nil => simp [sortValues]
  | cons y ys ih => simp [sortValues, mem_insertSorted, ih]

theorem length_insertSorted (a : ℚ) (l : List ℚ) :
    (insertSorted a l).length = l.length + 1 := by
  induction l with
  | nil => rfl
  | cons y ys ih =>
      by_cases h : a ≤ y
      · simp [insertSorted, h]
      · simp [insertSorted, h, ih]

theorem length_sortValues (l : List ℚ) : (sortValues l).length = l.length := by
  induction l with
  | nil => rfl
  | cons y ys ih => simp [sortValues, length_insertSorted, ih]

theorem getD_of_all_eq {l : List ℚ} {v : ℚ} (h : ∀ x ∈ l, x = v) {i : ℕ}
    (hi : i < l.length) : l.getD i 0 = v := by
  induction l generalizing i with
  | nil => simp at hi
  | cons y ys ih =>
      cases i with
      | zero => simpa using h y (by simp)
      | succ j =>
          have : ∀ x ∈ ys, x = v := fun x hx => h x (by simp [hx])
          simpa using ih this (by simpa using hi)

theorem medianOf_all_eq {l : List ℚ} {v : ℚ} (h : ∀ x ∈ l, x = v) (hne : l ≠ []) :
    medianOf l = v := by
  have hlen : 0 < l.length := List.length_pos.mpr hne
  unfold medianOf
  by_cases hodd : l.length % 2 = 1
  · rw [if_pos hodd]
    exact getD_of_all_eq h (by omega)
  · rw [if_neg hodd]
    have h2 : 2 ≤ l.length := by omega
    have ha : l.getD (l.length / 2 - 1) 0 = v := getD_of_all_eq h (by omega)
    have hb : l.getD (l.length / 2) 0 = v := getD_of_all_eq h (by omega)
    rw [ha, hb]
    ring

theorem medianValue_all_eq {l : List ℚ} {v : ℚ} (h : ∀ x ∈ l, x = v) (hne : l ≠ []) :
    medianValue l = v := by
  unfold medianValue
  refine medianOf_all_eq (fun x hx => h x (mem_sortValues.mp hx)) ?_
  intro hcon
  apply hne
  have hl := length_sortValues l
  rw [hcon] at hl
  exact List.length_eq_zero.mp hl.symm

theorem foldl_min_all_eq {l : List ℚ} {v : ℚ} (h : ∀ x ∈ l, x = v) :
    l.foldl min v = v := by
  induction l with
  | nil => rfl
  | cons y ys ih =>
      have hy : y = v := h y (by simp)
      have : ∀ x ∈ ys, x = v := fun x hx => h x (by simp [hx])
      simp [hy, ih this]

theorem foldl_max_all_eq {l : List ℚ} {v : ℚ} (h : ∀ x ∈ l, x = v) :
    l.foldl max v = v := by
  induction l with
  | nil => rfl
  | cons y ys ih =>
      have hy : y = v := h y (by simp)
      have : ∀ x ∈ ys, x = v := fun x hx => h x (by simp [hx])
      simp [hy, ih this]

theorem minOf_all_eq {l : List ℚ} {v : ℚ} (h : ∀ x ∈ l, x = v) (hne : l ≠ []) :
    minOf l = v := by
  cases l with
  | nil => exact absurd rfl hne
  | cons y ys =>
      have hy : y = v := h y (by simp)
      have : ∀ x ∈ ys, x = v := fun x hx => h x (by simp [hx])
      simpa [minOf, hy] using foldl_min_all_eq this

theorem maxOf_all_eq {l : List ℚ} {v : ℚ} (h : ∀ x ∈ l, x = v) (hne : l ≠ []) :
    maxOf l = v := by
  cases l with
  | nil => exact absurd rfl hne
  | cons y ys =>
      have hy : y = v := h y (by simp)
      have : ∀ x ∈ ys, x = v := fun x hx => h x (by simp [hx])
      simpa [maxOf, hy] using foldl_max_all_eq this

theorem numericValuesOf_all_eq {cands : List ReconciliationCandidate} {v : ℚ}
    (h : ∀ c ∈ cands, c.value = some v) :
    (∀ x ∈ numericValuesOf cands, x = v) ∧
      (numericValuesOf cands).length = cands.length := by
  induction cands with
  | nil => simp [numericValuesOf]
  | cons c cs ih =>
      have hc : c.value = some v := h c (by simp)
      have hcs : ∀ x ∈ cs, x.value = some v := fun x hx => h x (by simp [hx])
      obtain ⟨ih1, ih2⟩ := ih hcs
      constructor
      · intro x hx
        rcases (by simpa [numericValuesOf, hc] using hx : x = v ∨ x ∈ numericValuesOf cs) with
          h1 | h2
        · exact h1
        · exact ih1 x h2
      · simp [numericValuesOf, hc]
        simpa [numericValuesOf] using ih2

theorem varianceValue_all_eq {l : List ℚ} {v : ℚ} (h : ∀ x ∈ l, x = v) (hne : l ≠ [])
    (hv : v ≠ 0) : varianceValue l = some 0 := by
  have hmed : medianValue l = v := medianValue_all_eq h hne
  unfold varianceValue
  rw [if_pos (by rw [hmed]; exact hv)]
  rw [hmed, minOf_all_eq h hne, maxOf_all_eq h hne]
  simp

/- When every candidate survives the staleness filter and carries the same
nonzero numeric value, `reconcile` takes the primary-tolerance branch:
variance 0 ≤ 0.15, confidence HIGH, value the common value. -/
theorem reconcile_const_high (parseTs : String → Option ℚ) (now : ℚ) (key : String)
    (cands : List ReconciliationCandidate) (v : ℚ)
    (hne : cands ≠ [])
    (hkeep : ∀ c ∈ cands, keepCandidate parseTs now (maxAgeFor key) c = true)
    (hval : ∀ c ∈ cands, c.value = some v)
    (hv : v ≠ 0) :
    ∃ r, reconcile parseTs now key cands = .ok r ∧
      r.confidence = .HIGH ∧ r.value = some v := by
  have hfilter : validCandidatesOf parseTs now key cands = cands :=
    List.filter_eq_self.mpr hkeep
  obtain ⟨hall, hlen⟩ := numericValuesOf_all_eq hval
  have hvne : numericValuesOf cands ≠ [] := by
    intro hcon
    exact hne (List.length_eq_zero.mp (by rw [← hlen, hcon]; rfl))
  have hvar : varianceValue (numericValuesOf cands) = some 0 :=
    varianceValue_all_eq hall hvne hv
  have hmed : medianValue (numericValuesOf cands) = v := medianValue_all_eq hall hvne
  refine ⟨highResult cands (numericValuesOf cands), ?_, rfl, ?_⟩
  · unfold reconcile
    rw [if_neg hne, hfilter, if_neg hne]
    unfold reconcileValid
    rw [if_neg hvne, if_pos ?_]
    rw [hvar]
    norm_num [varLE, PRIMARY_TOLERANCE]
  · simp [highResult, hmed]

/- Each primitive `CircuitBreaker` mutation either leaves `state` unchanged
or moves it along one of the four allowed edges. -/
theorem applyOp_state_edge (op : CBOp) (cb : CircuitBreaker) :
    (applyOp op cb).state = cb.state ∨
      allowedEdge cb.state (applyOp op cb).state = true := by
  cases op with
  | check now =>
      simp only [applyOp, checkOpen]
      by_cases h : cb.state = .opened
      · by_cases h2 : now - cb.lastFailureTime > cb.recoveryTimeout
        · right
          simp [h, h2, allowedEdge]
        · left
          simp [h, h2]
      · left
        simp [h]
  | success =>
      simp only [applyOp, onSuccess]
      by_cases h : cb.state = .halfOpen
      · by_cases h2 : cb.halfOpenSuccessThreshold ≤ cb.successes + 1
        · right
          simp [h, h2, allowedEdge]
        · left
          simp [h, h2]
      · left
        simp [h]
  | failure t =>
      simp only [applyOp, onFailure]
      by_cases h : cb.state = .halfOpen
      · right
        simp [h, allowedEdge]
      · by_cases h2 : cb.failureThreshold ≤ cb.failures + 1
        · cases hst : cb.state with
          | closed => right; simp [hst, h2, allowedEdge]
          | opened => left; simp [hst, h2]
          | halfOpen => exact absurd hst h
        · left
          simp [h, h2]

theorem cbTrace_head (ops : List CBOp) (cb : CircuitBreaker) :
    (cbTrace cb ops).head? = some cb := by
  cases ops <;> rfl

/- The bucket fields `acquire` never changes, and the clock it records. -/
theorem acquire_fields (now n : ℚ) (tb : TokenBucket) :
    (acquire now n tb).1.rate = tb.rate ∧ (acquire now n tb).1.capacity = tb.capacity ∧
      (acquire now n tb).1.lastUpdate = now := by
  simp only [acquire, refill]
  split <;> exact ⟨rfl, rfl, rfl⟩

/- One `acquire` keeps `tokens` within `[0, capacity]` when the rate and
the request are non-negative and the clock has not gone backwards. -/
theorem acquire_inv (now n : ℚ) (tb : TokenBucket)
    (hr : 0 ≤ tb.rate) (h0 : 0 ≤ tb.tokens) (hc : tb.tokens ≤ tb.capacity)
    (hn : 0 ≤ n) (ht : tb.lastUpdate ≤ now) :
    0 ≤ (acquire now n tb).1.tokens ∧ (acquire now n tb).1.tokens ≤ tb.capacity := by
  have hcap0 : 0 ≤ tb.capacity := le_trans h0 hc
  have hmul : 0 ≤ (now - tb.lastUpdate) * tb.rate :=
    mul_nonneg (by linarith) hr
  have hlo : 0 ≤ min tb.capacity (tb.tokens + (now - tb.lastUpdate) * tb.rate) :=
    le_min hcap0 (by linarith)
  have hhi : min tb.capacity (tb.tokens + (now - tb.lastUpdate) * tb.rate) ≤ tb.capacity :=
    min_le_left _ _
  simp only [acquire, refill]
  split
  · rename_i hge
    dsimp only at hge ⊢
    exact ⟨by linarith, by linarith⟩
  · exact ⟨hlo, hhi⟩

/- Invariant along a whole trace, from any start state in range. -/
theorem tbStates_inv : ∀ (ops : List (ℚ × ℚ)) (tb : TokenBucket),
    0 ≤ tb.rate → 0 ≤ tb.tokens → tb.tokens ≤ tb.capacity →
    (∀ p ∈ ops, 0 ≤ p.2) →
    List.Chain' (· ≤ ·) (tb.lastUpdate :: ops.map Prod.fst) →
    ∀ s ∈ tbStates tb ops,
      (0 ≤ s.tokens ∧ s.tokens ≤ s.capacity) ∧ s.capacity = tb.capacity
  | [], tb => by
      intro _ h0 hc _ _ s hs
      simp only [tbStates, List.mem_singleton] at hs
      subst hs
      exact ⟨⟨h0, hc⟩, rfl⟩
  | (now, n) :: ops, tb => by
      intro hr h0 hc hreq hclock s hs
      have hn : 0 ≤ n := hreq (now, n) (by simp)
      have ht : tb.lastUpdate ≤ now := by
        simpa using (List.chain'_cons.mp hclock).1
      obtain ⟨hf1, hf2, hf3⟩ := acquire_fields now n tb
      have hstep := acquire_inv now n tb hr h0 hc hn ht
      simp only [tbStates, List.mem_cons] at hs
      rcases hs with hs | hs
      · subst hs
        exact ⟨⟨h0, hc⟩, rfl⟩
      · have ih := tbStates_inv ops (acquire now n tb).1
          (by rw [hf1]; exact hr) hstep.1 (by rw [hf2]; exact hstep.2)
          (fun p hp => hreq p (by simp [hp]))
          (by
            rw [hf3]
            exact (List.chain'_cons.mp hclock).2)
          s hs
        rw [hf2] at ih
        exact ih

/- ============================================================
   CLAIM THEOREMS
   ============================================================ -/

/- Concrete fixtures for C1: two candidates from the same source with the
same unparsable timestamp, so both score `0.8 + 0.5 * 0.3 = 0.95`, and
values far enough apart (variance `100/150 > 0.15`) to reach the sort. -/
def candC1a : ReconciliationCandidate :=
  { value := some 100, source := "fmp", fetched_at := "bad-timestamp" }

def candC1b : ReconciliationCandidate :=
  { value := some 200, source := "fmp", fetched_at := "bad-timestamp" }

/-- C1: the claim says `reconcile` never raises, but on tied trust+recency
scores `scored_candidates.sort(reverse=True)` compares the two
`ReconciliationCandidate` dataclass operands (declared without `order=True`)
and raises `TypeError`; this theorem evaluates the embedding at that failing
input. -/
theorem reconcile_tied_scores_typeerror :
    reconcile (fun _ => none) 0 "price" [candC1a, candC1b] = .error () := by
  with_unfolding_all decide

/- Concrete fixtures for C2's counterexample: a single genuinely fresh
candidate (timestamp parses to age 0) whose value is 0. -/
def parseC2cex : String → Option ℚ := fun s => if s = "tz" then some 0 else none

def candC2cex : ReconciliationCandidate :=
  { value := some 0, source := "fmp", fetched_at := "tz" }

/-- C2 counterexample: a non-empty, non-stale candidate list whose only
value is the common (non-null) value 0 yields confidence LOW — the median
is 0, so the variance is `float('inf')`, not 0 — refuting the claim as
stated for the common value 0. -/
theorem reconcile_common_zero_not_high :
    keepCandidate parseC2cex 0 (maxAgeFor "price") candC2cex = true ∧
      (reconcile parseC2cex 0 "price" [candC2cex]).map ReconciliationResult.confidence
        = .ok ConfidenceLevel.LOW := by
  with_unfolding_all decide

/-- C2 (amended): for every non-empty candidate list that survives the
staleness filter in which every candidate has the same non-null, nonzero
numeric value, `reconcile` returns confidence HIGH and that common value. -/
theorem reconcile_all_equal_nonzero_high (parseTs : String → Option ℚ) (now : ℚ)
    (key : String) (cands : List ReconciliationCandidate) (v : ℚ)
    (hne : cands ≠ [])
    (hkeep : ∀ c ∈ cands, keepCandidate parseTs now (maxAgeFor key) c = true)
    (hval : ∀ c ∈ cands, c.value = some v)
    (hv : v ≠ 0) :
    ∃ r, reconcile parseTs now key cands = .ok r ∧
      r.confidence = .HIGH ∧ r.value = some v :=
  reconcile_const_high parseTs now key cands v hne hkeep hval hv

def parseC2 : String → Option ℚ := fun s => if s = "2024" then some 0 else none

def candC2 : ReconciliationCandidate :=
  { value := some 100, source := "fmp", fetched_at := "2024" }

/-- C2 witness: two fresh agreeing candidates with value 100 reach HIGH. -/
theorem reconcile_all_equal_nonzero_high_witness :
    ∃ r, reconcile parseC2 0 "revenue" [candC2, candC2] = .ok r ∧
      r.confidence = .HIGH ∧ r.value = some 100 :=
  reconcile_all_equal_nonzero_high parseC2 0 "revenue" [candC2, candC2] 100
    (by decide)
    (by with_unfolding_all decide)
    (by with_unfolding_all decide)
    (by with_unfolding_all decide)

/-- C3: along every sequence of CircuitBreaker operations, consecutive
states are either equal or joined by one of the four allowed edges
CLOSED→OPEN, OPEN→HALF_OPEN, HALF_OPEN→CLOSED, HALF_OPEN→OPEN; in
particular the state never moves OPEN→CLOSED or CLOSED→HALF_OPEN
directly. -/
theorem circuitBreaker_state_transitions (cb : CircuitBreaker) (ops : List CBOp) :
    List.Chain' (fun a b => a.state = b.state ∨ allowedEdge a.state b.state = true)
      (cbTrace cb ops) := by
  induction ops generalizing cb with
  | nil => simp [cbTrace]
  | cons op ops ih =>
      rw [show cbTrace cb (op :: ops) = cb :: cbTrace (applyOp op cb) ops from rfl]
      rw [List.chain'_cons']
      refine ⟨?_, ih (applyOp op cb)⟩
      intro y hy
      rw [cbTrace_head] at hy
      have hee : applyOp op cb = y := by simpa using hy
      subst hee
      rcases applyOp_state_edge op cb with h | h
      · exact Or.inl h.symm
      · exact Or.inr h

/-- C4: `call(fn)` rejects with `CircuitBreakerOpenError` and does not
invoke `fn` when the breaker is OPEN within the recovery window; when OPEN
with the window elapsed it behaves as running `fn` from the HALF_OPEN
state; otherwise it runs `fn` from the current state — in both running
cases `fn` is invoked and its result returned or its error re-raised (the
`runFn` body). -/
theorem circuitBreaker_call_spec (now failT : ℚ) (fn : Except String ℚ)
    (cb : CircuitBreaker) :
    (cb.state = .opened → ¬(now - cb.lastFailureTime > cb.recoveryTimeout) →
        call now failT fn cb = (cb, .error .circuitOpen, false)) ∧
    (cb.state = .opened → now - cb.lastFailureTime > cb.recoveryTimeout →
        call now failT fn cb = runFn failT fn { cb with state := .halfOpen } ∧
          (call now failT fn cb).2.2 = true) ∧
    (cb.state ≠ .opened →
        call now failT fn cb = runFn failT fn cb ∧
          (call now failT fn cb).2.2 = true) := by
  have hrun : ∀ c : CircuitBreaker, (runFn failT fn c).2.2 = true := by
    intro c
    cases fn <;> rfl
  refine ⟨?_, ?_, ?_⟩
  · intro h1 h2
    simp [call, checkOpen, h1, h2]
  · intro h1 h2
    have hc : call now failT fn cb = runFn failT fn { cb with state := .halfOpen } := by
      simp [call, checkOpen, h1, h2]
    exact ⟨hc, by rw [hc]; exact hrun _⟩
  · intro h1
    have hc : call now failT fn cb = runFn failT fn cb := by
      simp [call, checkOpen, h1]
    exact ⟨hc, by rw [hc]; exact hrun _⟩

def cbC4 : CircuitBreaker := { name := "s", state := .opened }

/-- C4 witness: an OPEN breaker 10 seconds after its (time-0) failure, with
the default 60-second recovery timeout, rejects without invoking the
function. -/
theorem circuitBreaker_call_spec_witness :
    cbC4.state = .opened ∧ ¬((10 : ℚ) - cbC4.lastFailureTime > cbC4.recoveryTimeout) ∧
      call 10 0 (.ok 5) cbC4 = (cbC4, .error .circuitOpen, false) :=
  ⟨rfl, by norm_num [cbC4],
    (circuitBreaker_call_spec 10 0 (.ok 5) cbC4).1 rfl (by norm_num [cbC4])⟩

/-- C5 counterexample: the claim's hypotheses (capacity ≥ 0, non-decreasing
clock, non-negative request) do not constrain `rate`; with `rate = -1` a
single `acquire` drives `tokens` to −5 < 0. -/
theorem tokenBucket_negative_rate_cex :
    0 ≤ (mkTokenBucket (-1) 5 "neg" 0).capacity ∧
      (acquire 10 0 (mkTokenBucket (-1) 5 "neg" 0)).1.tokens < 0 := by
  with_unfolding_all decide

/-- C5 (amended): with `0 ≤ rate` added to the claim's hypotheses
(capacity ≥ 0, non-decreasing clock, non-negative requests), every state
before and after every `acquire` satisfies `0 ≤ tokens ≤ capacity`. -/
theorem tokenBucket_tokens_in_range (rate cap t0 : ℚ) (name : String)
    (ops : List (ℚ × ℚ)) (hrate : 0 ≤ rate) (hcap : 0 ≤ cap)
    (hreq : ∀ p ∈ ops, 0 ≤ p.2)
    (hclock : List.Chain' (· ≤ ·) (t0 :: ops.map Prod.fst)) :
    ∀ tb ∈ tbStates (mkTokenBucket rate cap name t0) ops,
      0 ≤ tb.tokens ∧ tb.tokens ≤ cap := by
  intro tb htb
  have h := tbStates_inv ops (mkTokenBucket rate cap name t0) hrate hcap
    (le_refl cap) hreq hclock tb htb
  have hc : tb.capacity = cap := h.2
  exact ⟨h.1.1, hc ▸ h.1.2⟩

def tbC5 : TokenBucket := (acquire 2 2 ((acquire 1 1 (mkTokenBucket 1 2 "w" 0)).1)).1

/-- C5 witness: a rate-1 capacity-2 bucket run through acquires at times 1
and 2 stays within `[0, 2]`; checked at the final trace state. -/
theorem tokenBucket_tokens_in_range_witness :
    tbC5 ∈ tbStates (mkTokenBucket 1 2 "w" 0) [(1, 1), (2, 2)] ∧
      0 ≤ tbC5.tokens ∧ tbC5.tokens ≤ 2 :=
  ⟨by with_unfolding_all decide,
    tokenBucket_tokens_in_range 1 2 0 "w" [(1, 1), (2, 2)] (by norm_num) (by norm_num)
      (by with_unfolding_all decide)
      (by norm_num [List.chain'_cons, List.chain'_singleton]) tbC5
      (by with_unfolding_all decide)⟩

/-- C6: after the lazy refill, `acquire` subtracts `n` and returns true
when `n ≤ tokens`, and otherwise returns false leaving the (post-refill)
bucket state unchanged. -/
theorem tokenBucket_acquire_frame (now n : ℚ) (tb : TokenBucket) :
    (n ≤ (refill now tb).tokens →
        acquire now n tb
          = ({ refill now tb with tokens := (refill now tb).tokens - n }, true)) ∧
    (¬ n ≤ (refill now tb).tokens → acquire now n tb = (refill now tb, false)) := by
  constructor <;> intro h <;> simp [acquire, h]

def tbC6 : TokenBucket := mkTokenBucket 1 5 "w6" 0

/-- C6 witness: a fresh rate-1 capacity-5 bucket grants 2 tokens at time 3,
leaving the refilled bucket minus 2. -/
theorem tokenBucket_acquire_frame_witness :
    2 ≤ (refill 3 tbC6).tokens ∧
      acquire 3 2 tbC6
        = ({ refill 3 tbC6 with tokens := (refill 3 tbC6).tokens - 2 }, true) :=
  ⟨by with_unfolding_all decide,
    (tokenBucket_acquire_frame 3 2 tbC6).1 (by with_unfolding_all decide)⟩

def payloadC7 : List (String × JsonVal) :=
  [ ("company_id", .vStr "RELIANCE"), ("metric", .vStr "revenue")
  , ("source_id", .vStr "fmp"), ("fetched_at", .vStr "2024-01-01")
  , ("raw_value", .vStr "not a number") ]

/-- C7: the claim says a payload whose `raw_value` is neither a number nor
null is rejected, but the validator's type dispatch compares the spec's
`type` entry only against plain strings, so `raw_value`'s list-typed spec
`["number","null"]` matches no branch and a string `raw_value` passes;
this theorem evaluates the embedding at that failing payload. -/
theorem validate_accepts_nonnumeric_raw_value :
    validate payloadC7 ADAPTER_RESPONSE_SCHEMA = (true, "") := by decide

/-- C8: a candidate whose `fetched_at` does not parse is kept by the
staleness filter of `reconcile` (fail-open), for every metric key and
candidate list containing it. -/
theorem unparsable_timestamp_kept (parseTs : String → Option ℚ) (now : ℚ)
    (key : String) (cands : List ReconciliationCandidate)
    (c : ReconciliationCandidate)
    (hc : c ∈ cands) (hp : parseTs c.fetched_at = none) :
    c ∈ validCandidatesOf parseTs now key cands := by
  unfold validCandidatesOf
  refine List.mem_filter.mpr ⟨hc, ?_⟩
  unfold keepCandidate
  rw [hp]

def candC8 : ReconciliationCandidate :=
  { value := some 1, source := "gnews", fetched_at := "not-a-date" }

/-- C8 witness: an unparsable-timestamp candidate survives the filter. -/
theorem unparsable_timestamp_kept_witness :
    candC8 ∈ ([candC8] : List ReconciliationCandidate) ∧
      candC8 ∈ validCandidatesOf (fun _ => none) 5 "price" [candC8] :=
  ⟨by simp,
    unparsable_timestamp_kept (fun _ => none) 5 "price" [candC8] candC8 (by simp) rfl⟩

/-- C9: a single surviving candidate with a non-null, nonzero numeric value
reaches confidence HIGH on its own, with `value` equal to its value (the
variance over a singleton set is 0). -/
theorem single_candidate_high_confidence (parseTs : String → Option ℚ) (now : ℚ)
    (key : String) (c : ReconciliationCandidate) (v : ℚ)
    (hkeep : keepCandidate parseTs now (maxAgeFor key) c = true)
    (hval : c.value = some v) (hv : v ≠ 0) :
    ∃ r, reconcile parseTs now key [c] = .ok r ∧
      r.confidence = .HIGH ∧ r.value = some v :=
  reconcile_const_high parseTs now key [c] v (by simp)
    (by
      intro x hx
      rw [List.mem_singleton.mp hx]
      exact hkeep)
    (by
      intro x hx
      rw [List.mem_singleton.mp hx]
      exact hval)
    hv

def parseC9 : String → Option ℚ := fun s => if s = "t9" then some 0 else none

def candC9 : ReconciliationCandidate :=
  { value := some 50, source := "yfinance", fetched_at := "t9" }

/-- C9 witness: one fresh yfinance candidate with value 50 reaches HIGH. -/
theorem single_candidate_high_confidence_witness :
    ∃ r, reconcile parseC9 0 "pe_ratio" [candC9] = .ok r ∧
      r.confidence = .HIGH ∧ r.value = some 50 :=
  single_candidate_high_confidence parseC9 0 "pe_ratio" candC9 50
    (by with_unfolding_all decide) rfl (by with_unfolding_all decide)

/-- C10: in the trust-scored branch (primary tolerance failed), whenever
the top-scored or second-scored candidate's value is 0, Python truthiness
makes the secondary-tolerance guard false, so the comparison is skipped and
the conflict outcome (confidence LOW, issue `conflicting_sources`) is
returned. -/
theorem zero_value_skips_secondary (parseTs : String → Option ℚ) (now : ℚ)
    (key : String) (cands : List ReconciliationCandidate)
    (s1 s2 : ℚ) (c1 c2 : ReconciliationCandidate)
    (rest : List (ℚ × ReconciliationCandidate))
    (hne : cands ≠ [])
    (hvne : validCandidatesOf parseTs now key cands ≠ [])
    (hnume : numericValuesOf (validCandidatesOf parseTs now key cands) ≠ [])
    (hvar : varLE (varianceValue (numericValuesOf (validCandidatesOf parseTs now key cands)))
        PRIMARY_TOLERANCE = false)
    (hsort : sortScoredDesc
        (scoredCandidates parseTs now (validCandidatesOf parseTs now key cands))
        = .ok ((s1, c1) :: (s2, c2) :: rest))
    (hz : c1.value = some 0 ∨ c2.value = some 0) :
    reconcile parseTs now key cands
      = .ok (conflictResult ((s1, c1) :: (s2, c2) :: rest)
          (varianceValue (numericValuesOf (validCandidatesOf parseTs now key cands)))
          (validCandidatesOf parseTs now key cands)) := by
  unfold reconcile
  rw [if_neg hne, if_neg hvne]
  unfold reconcileValid
  rw [if_neg hnume]
  rw [hsort]
  simp only [hvar, Bool.false_eq_true, if_false]
  have hcond : (pyTruthy c1.value && pyTruthy c2.value
      && !decide (c1.value = some (0 : ℚ))) = false := by
    rcases hz with h | h
    · rw [h]
      simp [pyTruthy]
    · rw [h]
      simp [pyTruthy]
  simp only [scoredStep, hcond, Bool.false_eq_true, if_false]

def candC10a : ReconciliationCandidate :=
  { value := some 0, source := "nse_india", fetched_at := "x" }

def candC10b : ReconciliationCandidate :=
  { value := some 100, source := "fmp", fetched_at := "x" }

/-- C10 witness: values {0, 100} fail the 15% tolerance (variance 2); the
top-scored candidate (nse_india, score 1.1) has value 0, so the 30% check
is skipped and the conflict outcome returned. -/
theorem zero_value_skips_secondary_witness :
    reconcile (fun _ => none) 0 "market_cap" [candC10a, candC10b]
      = .ok (conflictResult [(11 / 10, candC10a), (19 / 20, candC10b)]
          (varianceValue (numericValuesOf
            (validCandidatesOf (fun _ => none) 0 "market_cap" [candC10a, candC10b])))
          (validCandidatesOf (fun _ => none) 0 "market_cap" [candC10a, candC10b])) :=
  zero_value_skips_secondary (fun _ => none) 0 "market_cap" [candC10a, candC10b]
    (11 / 10) (19 / 20) candC10a candC10b []
    (by decide)
    (by with_unfolding_all decide)
    (by with_unfolding_all decide)
    (by with_unfolding_all decide)
    (by with_unfolding_all decide)
    (Or.inl rfl)

end Infra
